import Mathlib

/-!
Shallow embedding of the seeker browser extension's keyboard-event
arbitration and media-action dispatch pipeline, translated from
`src/js/core/media-controller.js`, `src/js/core/keyboard-handler.js`,
`src/js/main.js` and `src/js/utils/config.js`.

Times and volumes are JS numbers used only through `+`, `-`, `*`, `/`,
`Math.min`, `Math.max` and comparisons; they are embedded as rationals.
`HTMLMediaElement.duration` can additionally be `NaN` (metadata not yet
loaded) or `Infinity` (unbounded stream), so it gets a dedicated type.
`HTMLMediaElement.currentTime` is always a finite number per the HTML
specification, so it stays a plain rational.
-/

namespace Seeker

/-- Does the character list start with the pattern given as the first
argument's reverse-order second argument?  Helper for `strIncludes`. -/
def leadsWith : List Char → List Char → Bool
  | _, [] => true
  | [], _ :: _ => false
  | c :: s, p :: ps => (c == p) && leadsWith s ps

/-- JS `String.prototype.includes` on character lists: `pat` occurs
contiguously inside the second argument. -/
def charsInclude (pat : List Char) : List Char → Bool
  | [] => leadsWith [] pat
  | c :: t => leadsWith (c :: t) pat || charsInclude pat t

/-- JS `hostname.includes(pat)` / `action.includes(pat)`. -/
def strIncludes (s pat : String) : Bool :=
  charsInclude pat.data s.data

/-- `HTMLMediaElement.duration`: `NaN` before metadata, `Infinity` for an
unbounded stream, or a finite number of seconds. -/
inductive Dur
  | nan
  | inf
  | fin (d : ℚ)
deriving DecidableEq, Repr

/-- The observed state of the page's `<video>` element. `textTracks` keeps,
for each text track, whether its mode is `showing`. -/
structure Video where
  currentTime : ℚ
  duration : Dur
  volume : ℚ
  muted : Bool
  paused : Bool
  hasSrc : Bool
  readyState : ℕ
  hasError : Bool
  textTracks : List Bool
deriving DecidableEq, Repr

/-- Player handle produced by the player detector; the media controller only
reads its `video` field in the operations modelled here. -/
structure Player where
  video : Video
deriving DecidableEq, Repr

/-- `ConfigManager.defaultSettings` in `src/js/utils/config.js`; `get` calls
are field reads of the currently loaded settings. -/
structure Settings where
  seekAmount : ℚ := 5
  volumeStep : ℚ := 1 / 10
  enableNotifications : Bool := true
  enableVolumeControl : Bool := true
  enablePlaybackControl : Bool := true
deriving DecidableEq, Repr

structure SeekAmounts where
  arrow : ℚ
  extended : ℚ
  large : ℚ
deriving DecidableEq, Repr

/-- `ConfigManager.getSeekAmounts`. -/
def getSeekAmounts (cfg : Settings) : SeekAmounts :=
  { arrow := cfg.seekAmount, extended := cfg.seekAmount * 2, large := 30 }

/-- `document.activeElement`, as inspected by
`KeyboardHandler.isInputElement`. -/
structure DomElement where
  tagName : String
  contentEditable : String
  role : Option String
deriving DecidableEq, Repr

/-- The parts of the page observed by the pipeline: hostname, presence of a
`<video>` element, the focused element, the site controls probed by the Hulu
seek fallback and the captions fallback, fullscreen state, and whether the
browser lets `video.play()` resolve (autoplay policy). -/
structure Dom where
  hostname : String
  hasVideoElement : Bool
  activeElement : Option DomElement
  huluForwardButtonVisible : Bool
  huluRewindButtonVisible : Bool
  huluSeekBarPresent : Bool
  captionsButtonVisible : Bool
  fullscreenThrows : Bool
  playResolves : Bool
deriving DecidableEq, Repr

def huluHost : String := "hulu.com"
def paramountHost : String := "paramountplus.com"
def disneyHost : String := "disneyplus.com"
def maxHost : String := "max.com"

/-- Per-site behavioural flags (spec §3 "Site Policy"). -/
structure PlatformConfig where
  name : String
  needsConflictPrevention : Bool
  needsScrollPrevention : Bool
deriving DecidableEq, Repr

/-- Modelled from the spec: `ConfigManager.isSupportedPlatform` is called by
`KeyboardHandler.shouldHandleKey` but its definition is not among the
provided source files.  Per spec §3/§4.1 a site is supported when the
hostname matches a known site by substring; the known sites are the ones the
caller's own inline fallback lists (hulu.com, paramountplus.com,
disneyplus.com, max.com). -/
def isSupportedPlatform (hostname : String) : Bool :=
  strIncludes hostname huluHost || strIncludes hostname paramountHost ||
  strIncludes hostname disneyHost || strIncludes hostname maxHost

/-- Modelled from the spec: `ConfigManager.getPlatformConfig` is called by
`KeyboardHandler.handleKeyDown` / `preventPlatformConflicts` but its
definition is not among the provided source files.  Per spec §3 it returns
the first Site Policy whose hostname substring matches, `none` for unmatched
hosts; conflict prevention is needed exactly on the sites that have
dedicated conflict handlers in the source (Paramount+ and Hulu). -/
def getPlatformConfig (hostname : String) : Option PlatformConfig :=
  if strIncludes hostname paramountHost then
    some { name := "Paramount+", needsConflictPrevention := true, needsScrollPrevention := true }
  else if strIncludes hostname huluHost then
    some { name := "Hulu", needsConflictPrevention := true, needsScrollPrevention := false }
  else if strIncludes hostname disneyHost then
    some { name := "Disney+", needsConflictPrevention := false, needsScrollPrevention := false }
  else if strIncludes hostname maxHost then
    some { name := "Max", needsConflictPrevention := false, needsScrollPrevention := false }
  else none

/-! ## Media controller (`src/js/core/media-controller.js`)

Operations read `this.currentPlayer : Option Player` and return their JS
result together with the updated player handle.  Every JS `try`/`catch` at an
action boundary is modelled by the operation being a total function. -/

/-- `MediaController.canSeek`: `duration > 0 && !isNaN(duration)`.  Note
`Infinity > 0` holds in JS. -/
def canSeek : Option Player → Bool
  | none => false
  | some pl =>
    match pl.video.duration with
    | Dur.nan => false
    | Dur.inf => true
    | Dur.fin d => decide (0 < d)

/-- The standard metadata check in `waitForVideoMetadata`:
`isFinite(duration) && duration > 0 && isFinite(currentTime)` (the embedded
`currentTime` is always finite). -/
def metadataAvailable (v : Video) : Bool :=
  match v.duration with
  | Dur.fin d => decide (0 < d)
  | _ => false

/-- `MediaController.waitForVideoMetadata`, under a video state that does not
change during the bounded wait: the wait resolves `true` as soon as the
standard check or (on Hulu) one of the lenient checks holds on the state, and
times out to `false` otherwise.  The lenient Hulu checks from the source:
`(src || currentSrc) && readyState >= 1 && !error`, `currentTime > 0`, and
(inside the polling loop) `readyState >= 2 && (src || currentSrc)`. -/
def waitForVideoMetadata (onHulu : Bool) (v : Video) : Bool :=
  metadataAvailable v ||
  (onHulu &&
    ((v.hasSrc && decide (1 ≤ v.readyState) && !v.hasError) ||
     decide (0 < v.currentTime) ||
     (decide (2 ≤ v.readyState) && v.hasSrc)))

/-- `MediaController.attemptHuluSeekFallback`.  Clicking Hulu's native
rewind/forward buttons or dispatching mouse events on the seek bar hands the
seek to the site's own player and writes nothing to the media element, so
those branches leave the video unchanged; only the last-resort branch assigns
`video.currentTime` directly. -/
def attemptHuluSeekFallback (dom : Dom) (v : Video) (amount : ℚ) (forward : Bool) :
    Bool × Video :=
  if forward && dom.huluForwardButtonVisible then (true, v)
  else if !forward && dom.huluRewindButtonVisible then (true, v)
  else if dom.huluSeekBarPresent then (true, v)
  else
    let currentTime := v.currentTime
    let newTime := if forward then currentTime + amount else max (currentTime - amount) 0
    if 0 ≤ newTime then (true, { v with currentTime := newTime }) else (false, v)

/-- `MediaController.attemptHuluPercentageSeekFallback`.  As above, the
seek-bar branch only dispatches mouse events; the last-resort branch
estimates the duration (`2700` when `duration` is not finite positive) and
assigns `currentTime` after validating the target. -/
def attemptHuluPercentageSeekFallback (dom : Dom) (v : Video) (percentage : ℚ) :
    Bool × Video :=
  if dom.huluSeekBarPresent then (true, v)
  else
    let estimatedDuration : ℚ :=
      match v.duration with
      | Dur.fin d => if 0 < d then d else 2700
      | _ => 2700
    let newTime := percentage / 100 * estimatedDuration
    if 0 ≤ newTime ∧ newTime ≤ estimatedDuration then
      (true, { v with currentTime := newTime })
    else (false, v)

/-- `MediaController.seekForward`.  `amount = none` models the `null` default
that resolves to the configured arrow seek amount.  When the metadata wait
succeeds, `newTime = Math.min(currentTime + amount, duration)`; with
`duration = Infinity` the minimum is the left operand.  (`duration = NaN`
cannot pass `canSeek`, so that arm returns `false` unchanged.) -/
def seekForward (dom : Dom) (cfg : Settings) (cp : Option Player) (amount? : Option ℚ) :
    Bool × Option Player :=
  let amount := amount?.getD (getSeekAmounts cfg).arrow
  match cp with
  | none => (false, none)
  | some pl =>
    if !canSeek (some pl) then (false, some pl)
    else
      let v := pl.video
      let onHulu := strIncludes dom.hostname huluHost
      if waitForVideoMetadata onHulu v then
        match v.duration with
        | Dur.fin d => (true, some ⟨{ v with currentTime := min (v.currentTime + amount) d }⟩)
        | Dur.inf => (true, some ⟨{ v with currentTime := v.currentTime + amount }⟩)
        | Dur.nan => (false, some pl)
      else if onHulu then
        let r := attemptHuluSeekFallback dom v amount true
        (r.1, some ⟨r.2⟩)
      else (false, some pl)

/-- `MediaController.seekBackward`: `newTime = Math.max(currentTime - amount, 0)`
(the duration is not used by the backward clamp). -/
def seekBackward (dom : Dom) (cfg : Settings) (cp : Option Player) (amount? : Option ℚ) :
    Bool × Option Player :=
  let amount := amount?.getD (getSeekAmounts cfg).arrow
  match cp with
  | none => (false, none)
  | some pl =>
    if !canSeek (some pl) then (false, some pl)
    else
      let v := pl.video
      let onHulu := strIncludes dom.hostname huluHost
      if waitForVideoMetadata onHulu v then
        (true, some ⟨{ v with currentTime := max (v.currentTime - amount) 0 }⟩)
      else if onHulu then
        let r := attemptHuluSeekFallback dom v amount false
        (r.1, some ⟨r.2⟩)
      else (false, some pl)

/-- `MediaController.seekForwardExtended`: forward by the extended (2×) amount. -/
def seekForwardExtended (dom : Dom) (cfg : Settings) (cp : Option Player) :
    Bool × Option Player :=
  seekForward dom cfg cp (some (getSeekAmounts cfg).extended)

/-- `MediaController.seekBackwardExtended`. -/
def seekBackwardExtended (dom : Dom) (cfg : Settings) (cp : Option Player) :
    Bool × Option Player :=
  seekBackward dom cfg cp (some (getSeekAmounts cfg).extended)

/-- `MediaController.seekToPercentage`: `newTime = percentage / 100 * duration`,
rejected when `!isFinite(newTime) || newTime < 0`.  With `duration = Infinity`
the product is `NaN` (percentage 0) or `Infinity`, both non-finite, so that
arm is rejected; `duration = NaN` cannot pass `canSeek`. -/
def seekToPercentage (dom : Dom) (cfg : Settings) (cp : Option Player) (percentage : ℚ) :
    Bool × Option Player :=
  match cp with
  | none => (false, none)
  | some pl =>
    if !canSeek (some pl) then (false, some pl)
    else
      let v := pl.video
      let onHulu := strIncludes dom.hostname huluHost
      if waitForVideoMetadata onHulu v then
        match v.duration with
        | Dur.fin d =>
          let newTime := percentage / 100 * d
          if newTime < 0 then (false, some pl)
          else (true, some ⟨{ v with currentTime := newTime }⟩)
        | _ => (false, some pl)
      else if onHulu then
        let r := attemptHuluPercentageSeekFallback dom v percentage
        (r.1, some ⟨r.2⟩)
      else (false, some pl)

/-- `MediaController.canControlPlayback`. -/
def canControlPlayback (cfg : Settings) (cp : Option Player) : Bool :=
  cp.isSome && cfg.enablePlaybackControl

/-- `MediaController.canControlVolume`. -/
def canControlVolume (cfg : Settings) (cp : Option Player) : Bool :=
  cp.isSome && cfg.enableVolumeControl

/-- Observable side effects of `togglePlayPause`: the synchronous
`video.pause()`, the asynchronous `video.play()` request, and the log or
notification entries emitted when the play promise settles. -/
inductive PlayEvent
  | playRequested
  | pausedSync
  | notified (msg : String)
  | loggedError
deriving DecidableEq, Repr

/-- `MediaController.togglePlayPause`.  The Bool result is computed and
returned synchronously; `playResolves` (the autoplay-policy outcome of the
`play()` promise) is consumed only by the `then`/`catch` callbacks, which
emit a notification or an error log. -/
def togglePlayPause (cfg : Settings) (cp : Option Player) (playResolves : Bool) :
    Bool × Option Player × List PlayEvent :=
  match cp with
  | none => (false, none, [])
  | some pl =>
    if !canControlPlayback cfg (some pl) then (false, some pl, [])
    else if pl.video.paused then
      let settle :=
        if playResolves then
          if cfg.enableNotifications then [PlayEvent.notified ("Play")] else []
        else [PlayEvent.loggedError]
      (true, some ⟨{ pl.video with paused := false }⟩, PlayEvent.playRequested :: settle)
    else
      let note := if cfg.enableNotifications then [PlayEvent.notified ("Pause")] else []
      (true, some ⟨{ pl.video with paused := true }⟩, PlayEvent.pausedSync :: note)

/-- `MediaController.showPlayPauseNotification`: only schedules a
notification (no media mutation); fails when playback control or
notifications are unavailable. -/
def showPlayPauseNotification (cfg : Settings) (cp : Option Player) : Bool :=
  canControlPlayback cfg cp && cfg.enableNotifications

/-- `MediaController.volumeUp`: `newVolume = Math.min(volume + step, 1)`. -/
def volumeUp (cfg : Settings) (cp : Option Player) (step? : Option ℚ) :
    Bool × Option Player :=
  let step := step?.getD cfg.volumeStep
  match cp with
  | none => (false, none)
  | some pl =>
    if !canControlVolume cfg (some pl) then (false, some pl)
    else (true, some ⟨{ pl.video with volume := min (pl.video.volume + step) 1 }⟩)

/-- `MediaController.volumeDown`: `newVolume = Math.max(volume - step, 0)`. -/
def volumeDown (cfg : Settings) (cp : Option Player) (step? : Option ℚ) :
    Bool × Option Player :=
  let step := step?.getD cfg.volumeStep
  match cp with
  | none => (false, none)
  | some pl =>
    if !canControlVolume cfg (some pl) then (false, some pl)
    else (true, some ⟨{ pl.video with volume := max (pl.video.volume - step) 0 }⟩)

/-- `MediaController.toggleMute`: `video.muted = !video.muted`. -/
def toggleMute (cfg : Settings) (cp : Option Player) : Bool × Option Player :=
  match cp with
  | none => (false, none)
  | some pl =>
    if !canControlVolume cfg (some pl) then (false, some pl)
    else (true, some ⟨{ pl.video with muted := !pl.video.muted }⟩)

/-- `MediaController.toggleCaptions`: with no text tracks, clicks a visible
site captions button when one exists; otherwise disables every showing track
and, if none was showing, enables the first track. -/
def toggleCaptions (dom : Dom) (cp : Option Player) : Bool × Option Player :=
  match cp with
  | none => (false, none)
  | some pl =>
    let v := pl.video
    if v.textTracks.isEmpty then
      if dom.captionsButtonVisible then (true, some pl) else (false, some pl)
    else
      let tracks :=
        if v.textTracks.any id then v.textTracks.map (fun _ => false)
        else
          match v.textTracks with
          | [] => []
          | _ :: rest => true :: rest
      (true, some ⟨{ v with textTracks := tracks }⟩)

/-- `MediaController.toggleFullscreen`: the fullscreen request/exit is an
external DOM effect; an exception from the fullscreen API is caught and
reported as `false`. -/
def toggleFullscreen (dom : Dom) (cp : Option Player) : Bool × Option Player :=
  match cp with
  | none => (false, none)
  | some pl => if dom.fullscreenThrows then (false, some pl) else (true, some pl)

/-! ## Keyboard handler (`src/js/core/keyboard-handler.js`) -/

/-- One row of the key-mapping table.  Default mappings never set the
`preventDefault` field the source tests on line 179, embedded here as
`preventDefaultFlag`. -/
structure KeyMapping where
  action : String
  params : List ℚ := []
  description : String := ""
  category : String := ""
  platformHandled : Bool := false
  preventDefaultFlag : Bool := false
deriving DecidableEq, Repr

/-- One digit entry of the `Digit0`..`Digit9` loop in
`initializeKeyMappings`. -/
def digitMapping (i : ℕ) : String × KeyMapping :=
  ("Digit" ++ toString i,
   { action := "seekToPercentage", params := [(i : ℚ) * 10],
     description := "Seek to " ++ toString (i * 10) ++ "%", category := "seeking" })

/-- The key-mapping table built by `KeyboardHandler.initializeKeyMappings`,
in insertion order. -/
def defaultKeyMappings : List (String × KeyMapping) :=
  [("ArrowLeft",
    { action := "seekBackward", description := "Seek backward 5s", category := "seeking" }),
   ("ArrowRight",
    { action := "seekForward", description := "Seek forward 5s", category := "seeking" }),
   ("ArrowUp",
    { action := "volumeUp", description := "Volume up", category := "volume" }),
   ("ArrowDown",
    { action := "volumeDown", description := "Volume down", category := "volume" }),
   ("Space",
    { action := "showPlayPauseNotification", description := "Play/Pause",
      category := "playback", platformHandled := true }),
   ("KeyK",
    { action := "togglePlayPause", description := "Play/Pause (K)", category := "playback" }),
   ("KeyJ",
    { action := "seekBackwardExtended", description := "Seek backward (double arrow time)",
      category := "seeking" }),
   ("KeyL",
    { action := "seekForwardExtended", description := "Seek forward (double arrow time)",
      category := "seeking" }),
   ("KeyM",
    { action := "toggleMute", description := "Mute/Unmute", category := "volume" }),
   ("KeyC",
    { action := "toggleCaptions", description := "Toggle captions", category := "display" }),
   ("KeyF",
    { action := "toggleFullscreen", description := "Toggle fullscreen", category := "display" })]
  ++ (List.range 10).map digitMapping

/-- `Map.get` on the key-mapping table (keys are pairwise distinct, so first
match is the entry). -/
def lookupMapping : List (String × KeyMapping) → String → Option KeyMapping
  | [], _ => none
  | (k, m) :: rest, key => if key = k then some m else lookupMapping rest key

/-- The fields of a `KeyboardEvent` read by the handler. -/
structure KeyEvent where
  code : String
  key : String
  ctrlKey : Bool := false
  altKey : Bool := false
  metaKey : Bool := false
deriving DecidableEq, Repr

/-- `KeyboardHandler.getKeyIdentifier`: `event.code` when truthy (non-empty),
else `event.key`. -/
def getKeyIdentifier (e : KeyEvent) : String :=
  if e.code = "" then e.key else e.code

/-- `KeyboardHandler.isInputElement`. -/
def isInputElement (el : DomElement) : Bool :=
  (["input", "textarea", "select"].contains el.tagName.toLower)
  || el.contentEditable == "true"
  || el.role == some ("textbox")

/-- `KeyboardHandler.shouldHandleKey`: reject modifier chords and text-input
focus; on a supported platform require only some `<video>` element, otherwise
require a detected player. -/
def shouldHandleKey (dom : Dom) (cp : Option Player) (e : KeyEvent) : Bool :=
  if e.ctrlKey || e.altKey || e.metaKey then false
  else if (dom.activeElement.map isInputElement).getD false then false
  else if isSupportedPlatform dom.hostname then dom.hasVideoElement
  else cp.isSome

/-- Key list of `preventParamountConflicts`. -/
def paramountKeys : List String :=
  ["Space", "ArrowLeft", "ArrowRight", "ArrowUp", "ArrowDown",
   "KeyJ", "KeyL", "KeyK", "KeyM", "KeyF", "KeyC"]

/-- Key list of `preventHuluConflicts`. -/
def huluKeys : List String :=
  ["ArrowLeft", "ArrowRight", "ArrowUp", "ArrowDown",
   "KeyJ", "KeyL", "KeyK", "KeyM", "KeyF", "KeyC"]

/-- The event-cancellation and action-execution calls observable on a single
keydown event, in call order. -/
inductive Obs
  | preventDefault
  | stopPropagation
  | stopImmediatePropagation
  | exec (action : String)
deriving DecidableEq, Repr

def suppressionObs : Obs → Bool
  | Obs.preventDefault => true
  | Obs.stopPropagation => true
  | Obs.stopImmediatePropagation => true
  | Obs.exec _ => false

def execObs : Obs → Bool
  | Obs.exec _ => true
  | _ => false

/-- `KeyboardHandler.preventParamountConflicts`: suppress for listed, mapped,
non-platform-handled keys. -/
def preventParamountConflicts (mappings : List (String × KeyMapping)) (key : String) :
    List Obs :=
  if paramountKeys.contains key then
    match lookupMapping mappings key with
    | some m =>
      if m.platformHandled then [] else [Obs.preventDefault, Obs.stopPropagation]
    | none => []
  else []

/-- `KeyboardHandler.preventHuluConflicts`: as for Paramount+, plus
`stopImmediatePropagation`. -/
def preventHuluConflicts (mappings : List (String × KeyMapping)) (key : String) :
    List Obs :=
  if huluKeys.contains key then
    match lookupMapping mappings key with
    | some m =>
      if m.platformHandled then []
      else [Obs.preventDefault, Obs.stopPropagation, Obs.stopImmediatePropagation]
    | none => []
  else []

/-- Keyboard-handler state: enabled flag, currently pressed keys, time of the
last accepted key, and the mapping table. -/
structure ArbState where
  isEnabled : Bool := true
  pressedKeys : List String := []
  lastKeyTime : ℕ := 0
  keyMappings : List (String × KeyMapping) := defaultKeyMappings
deriving DecidableEq, Repr

/-- `this.keyRepeatDelay` (ms). -/
def keyRepeatDelay : ℕ := 150

/-- `Set.add` on the pressed-keys set. -/
def addPressedKey (l : List String) (k : String) : List String :=
  if l.contains k then l else k :: l

/-- `KeyboardHandler.preventPlatformConflicts`: re-checks applicability, then
the per-mapping `preventDefault` flag, then the per-site conflict handlers
gated by `needsConflictPrevention`. -/
def preventPlatformConflicts (dom : Dom) (arb : ArbState) (cp : Option Player)
    (e : KeyEvent) : List Obs :=
  if !arb.isEnabled || !shouldHandleKey dom cp e then []
  else
    let key := getKeyIdentifier e
    let t1 :=
      match lookupMapping arb.keyMappings key with
      | some m =>
        if m.preventDefaultFlag then [Obs.preventDefault, Obs.stopPropagation] else []
      | none => []
    let t2 :=
      match getPlatformConfig dom.hostname with
      | some pc =>
        if pc.needsConflictPrevention then
          if strIncludes dom.hostname paramountHost then
            preventParamountConflicts arb.keyMappings key
          else if strIncludes dom.hostname huluHost then
            preventHuluConflicts arb.keyMappings key
          else []
        else []
      | none => []
    t1 ++ t2

/-- Dispatch of `this.mediaController[action](...params)` in `executeAction`:
`none` when the action name is not a media-controller method; otherwise
whether the returned value is a promise (the async seek family), the
(resolved) Bool result, and the updated player.  `params` feeds
`seekToPercentage` its percentage. -/
def runAction (dom : Dom) (cfg : Settings) (cp : Option Player)
    (action : String) (params : List ℚ) : Option (Bool × Bool × Option Player) :=
  if action = "seekForward" then
    let r := seekForward dom cfg cp none
    some (true, r.1, r.2)
  else if action = "seekBackward" then
    let r := seekBackward dom cfg cp none
    some (true, r.1, r.2)
  else if action = "seekForwardExtended" then
    let r := seekForwardExtended dom cfg cp
    some (true, r.1, r.2)
  else if action = "seekBackwardExtended" then
    let r := seekBackwardExtended dom cfg cp
    some (true, r.1, r.2)
  else if action = "seekToPercentage" then
    let r := seekToPercentage dom cfg cp (params.headD 0)
    some (true, r.1, r.2)
  else if action = "volumeUp" then
    let r := volumeUp cfg cp none
    some (false, r.1, r.2)
  else if action = "volumeDown" then
    let r := volumeDown cfg cp none
    some (false, r.1, r.2)
  else if action = "toggleMute" then
    let r := toggleMute cfg cp
    some (false, r.1, r.2)
  else if action = "togglePlayPause" then
    let r := togglePlayPause cfg cp dom.playResolves
    some (false, r.1, r.2.1)
  else if action = "showPlayPauseNotification" then
    some (false, showPlayPauseNotification cfg cp, cp)
  else if action = "toggleCaptions" then
    let r := toggleCaptions dom cp
    some (false, r.1, r.2)
  else if action = "toggleFullscreen" then
    let r := toggleFullscreen dom cp
    some (false, r.1, r.2)
  else none

def seekLower : String := "seek"
def seekUpper : String := "Seek"

/-- `KeyboardHandler.executeAction`: invoke the mapped media-controller
method; for a promise-returning seek action call
`preventDefault`/`stopPropagation` right after invoking it (unless
platform-handled); for a successful synchronous action call them after it
returns.  Unknown actions only log.  The surrounding `try`/`catch` makes the
whole step total. -/
def executeAction (dom : Dom) (cfg : Settings) (cp : Option Player) (mp : KeyMapping) :
    Option Player × List Obs :=
  match runAction dom cfg cp mp.action mp.params with
  | none => (cp, [])
  | some (isAsync, result, cp2) =>
    if isAsync then
      (cp2, Obs.exec mp.action ::
        (if !mp.platformHandled &&
            (strIncludes mp.action seekLower || strIncludes mp.action seekUpper) then
           [Obs.preventDefault, Obs.stopPropagation]
         else []))
    else
      (cp2, Obs.exec mp.action ::
        (if result && !mp.platformHandled then
           [Obs.preventDefault, Obs.stopPropagation]
         else []))

/-- `KeyboardHandler.handleKeyDown` at time `now` (ms): applicability check,
mapping lookup, repeat debounce, then — for the aggressive platform
(hulu.com with conflict prevention) — suppression before the action, and for
every other platform the action followed by suppression. -/
def handleKeyDown (dom : Dom) (cfg : Settings) (arb : ArbState) (cp : Option Player)
    (e : KeyEvent) (now : ℕ) : ArbState × Option Player × List Obs :=
  if !arb.isEnabled || !shouldHandleKey dom cp e then (arb, cp, [])
  else
    let key := getKeyIdentifier e
    match lookupMapping arb.keyMappings key with
    | none => (arb, cp, [])
    | some mp =>
      if arb.pressedKeys.contains key && decide (now - arb.lastKeyTime < keyRepeatDelay) then
        (arb, cp, [])
      else
        let arb2 := { arb with pressedKeys := addPressedKey arb.pressedKeys key,
                               lastKeyTime := now }
        let isAggressivePlatform := strIncludes dom.hostname huluHost
        let needsPrevention :=
          match getPlatformConfig dom.hostname with
          | some pc => pc.needsConflictPrevention
          | none => false
        let tPre :=
          if isAggressivePlatform && needsPrevention then
            preventPlatformConflicts dom arb2 cp e
          else []
        let r := executeAction dom cfg cp mp
        let tPost :=
          if !isAggressivePlatform then preventPlatformConflicts dom arb2 r.1 e
          else []
        (arb2, r.1, tPre ++ r.2 ++ tPost)

/-- `KeyboardHandler.handleKeyUp`: drop the key from the pressed set. -/
def handleKeyUp (arb : ArbState) (e : KeyEvent) : ArbState :=
  { arb with pressedKeys := arb.pressedKeys.erase (getKeyIdentifier e) }

/-! ## Orchestrator retry (`src/js/main.js`) -/

inductive OrchLog
  | warnRetry (delayMs : ℕ)
  | gaveUp
deriving DecidableEq, Repr

/-- `SeekerExtension` startup-retry state (constructor fields `retryCount`,
`maxRetries`, `isInitialized`; `pendingRetryDelay` is the armed
`setTimeout`). -/
structure OrchState where
  retryCount : ℕ := 0
  maxRetries : ℕ := 5
  isInitialized : Bool := false
  pendingRetryDelay : Option ℕ := none
  log : List OrchLog := []
deriving DecidableEq, Repr

/-- `SeekerExtension.scheduleRetry`: at the ceiling, log the final give-up
and arm nothing; otherwise increment the count and arm a retry after
`Math.min(1000 * 2 ^ retryCount, 10000)` ms. -/
def scheduleRetry (s : OrchState) : OrchState :=
  if s.maxRetries ≤ s.retryCount then
    { s with log := s.log ++ [OrchLog.gaveUp] }
  else
    let rc := s.retryCount + 1
    let delay := min (1000 * 2 ^ rc) 10000
    { s with retryCount := rc, pendingRetryDelay := some delay,
             log := s.log ++ [OrchLog.warnRetry delay] }

/-- One run of `initializeComponents`, collapsed to its outcome: success
marks the extension initialized and resets the retry count; any step
throwing is caught and forwarded to `scheduleRetry`. -/
def initAttempt (succeeds : Bool) (s : OrchState) : OrchState :=
  if succeeds then
    { s with isInitialized := true, retryCount := 0, pendingRetryDelay := none }
  else scheduleRetry s

/-- The armed retry timer firing (and failing again): when no timer is
armed, nothing ever runs again. -/
def stepFail (s : OrchState) : OrchState :=
  match s.pendingRetryDelay with
  | some _ => initAttempt false { s with pendingRetryDelay := none }
  | none => s

/-- The orchestrator state after the initial failing attempt and `n`
subsequent timer firings, every attempt failing. -/
def runFail : ℕ → OrchState
  | 0 => initAttempt false {}
  | n + 1 => stepFail (runFail n)

def gaveUpCount (l : List OrchLog) : ℕ := l.count OrchLog.gaveUp

/-! ## Bounds predicates and fixtures -/

/-- The playback position is within `[0, duration]`: nonnegative, and at most
the duration whenever the duration is a finite number. -/
def posInBounds (v : Video) : Bool :=
  decide (0 ≤ v.currentTime) &&
    (match v.duration with
     | Dur.fin d => decide (v.currentTime ≤ d)
     | _ => true)

def playerInBounds : Option Player → Bool
  | none => true
  | some pl => posInBounds pl.video

/-- The volume is within `[0, 1]`. -/
def volumeInBounds : Option Player → Bool
  | none => true
  | some pl => decide (0 ≤ pl.video.volume) && decide (pl.video.volume ≤ 1)

/-- Number of action executions in an observation trace. -/
def execCount (t : List Obs) : ℕ := t.countP execObs

def baseVideo : Video :=
  { currentTime := 0, duration := Dur.fin 200, volume := 1 / 2, muted := false,
    paused := true, hasSrc := true, readyState := 4, hasError := false, textTracks := [] }

def plainDom : Dom :=
  { hostname := "www.example.com", hasVideoElement := true, activeElement := none,
    huluForwardButtonVisible := false, huluRewindButtonVisible := false,
    huluSeekBarPresent := false, captionsButtonVisible := false,
    fullscreenThrows := false, playResolves := true }

def huluDom : Dom := { plainDom with hostname := "www.hulu.com" }

def keyMEvent : KeyEvent := { code := "KeyM", key := "m" }
def digit5Event : KeyEvent := { code := "Digit5", key := "5" }
def arrowRightEvent : KeyEvent := { code := "ArrowRight", key := "ArrowRight" }

/-! ## Theorems -/

/-- C7: when a startup step throws, the orchestrator retries with delay
`min(1000·2^attempt, 10000)` ms — base 1s, doubling per attempt, capped at
10s — up to the fixed ceiling of 5 retries; after the ceiling it schedules no
further retry for the page load, stays uninitialized, and has logged exactly
one final gave-up entry. -/
theorem retry_backoff_gives_up :
    (∀ k, k < 5 → (runFail k).pendingRetryDelay = some (min (1000 * 2 ^ (k + 1)) 10000)) ∧
    (runFail 5).pendingRetryDelay = none ∧
    (runFail 5).isInitialized = false ∧
    gaveUpCount (runFail 5).log = 1 ∧
    (∀ m, 5 ≤ m → runFail m = runFail 5) := by
  refine ⟨?_, by decide, by decide, by decide, ?_⟩
  · intro k hk
    interval_cases k <;> decide
  · intro m hm
    obtain ⟨j, rfl⟩ : ∃ j, m = 5 + j := ⟨m - 5, by omega⟩
    clear hm
    induction j with
    | zero => rfl
    | succ n ih =>
      have h5 : 5 + (n + 1) = (5 + n) + 1 := by omega
      rw [h5]
      show stepFail (runFail (5 + n)) = runFail 5
      rw [ih]
      decide

theorem retry_backoff_gives_up_witness :
    (runFail 3).pendingRetryDelay = some (min (1000 * 2 ^ (3 + 1)) 10000) ∧
    runFail 7 = runFail 5 :=
  ⟨retry_backoff_gives_up.1 3 (by decide), retry_backoff_gives_up.2.2.2.2 7 (by decide)⟩

/-- C9: with a player handle and volume control enabled, invoking
`toggleMute` twice returns the player (in particular the muted flag) to its
original state; each invocation reports success. -/
theorem toggleMute_involutive (cfg : Settings) (pl : Player)
    (hv : cfg.enableVolumeControl = true) :
    (toggleMute cfg (some pl)).1 = true ∧
    (toggleMute cfg ((toggleMute cfg (some pl)).2)).2 = some pl := by
  obtain ⟨v⟩ := pl
  simp [toggleMute, canControlVolume, hv]

theorem toggleMute_involutive_witness :
    (toggleMute {} (some ⟨baseVideo⟩)).1 = true ∧
    (toggleMute {} ((toggleMute {} (some ⟨baseVideo⟩)).2)).2 = some ⟨baseVideo⟩ :=
  toggleMute_involutive {} ⟨baseVideo⟩ rfl

/-- C10: with a player handle and playback control enabled,
`togglePlayPause` returns `true` and its updated player state independently
of how the asynchronous `play()` promise later settles; when the promise
rejects (autoplay policy) on a paused video, the settlement produces only a
logged error. -/
theorem togglePlayPause_async_result (cfg : Settings) (cp : Option Player)
    (h : canControlPlayback cfg cp = true) :
    (∀ b, (togglePlayPause cfg cp b).1 = true) ∧
    (∀ b, (togglePlayPause cfg cp b).2.1 = (togglePlayPause cfg cp true).2.1) ∧
    (∀ pl : Player, cp = some pl → pl.video.paused = true →
      (togglePlayPause cfg cp false).2.2 =
        [PlayEvent.playRequested, PlayEvent.loggedError]) := by
  match cp with
  | none => simp [canControlPlayback] at h
  | some pl =>
    refine ⟨?_, ?_, ?_⟩
    · intro b
      simp [togglePlayPause, h]
      split <;> simp
    · intro b
      simp [togglePlayPause, h]
      split <;> simp
    · intro pl2 hpl hp
      obtain rfl : pl2 = pl := by injection hpl.symm
      simp [togglePlayPause, h, hp]

theorem togglePlayPause_async_result_witness :
    (∀ b, (togglePlayPause {} (some ⟨baseVideo⟩) b).1 = true) ∧
    (∀ b, (togglePlayPause {} (some ⟨baseVideo⟩) b).2.1 =
      (togglePlayPause {} (some ⟨baseVideo⟩) true).2.1) ∧
    (∀ pl : Player, some ⟨baseVideo⟩ = some pl → pl.video.paused = true →
      (togglePlayPause {} (some ⟨baseVideo⟩) false).2.2 =
        [PlayEvent.playRequested, PlayEvent.loggedError]) :=
  togglePlayPause_async_result {} (some ⟨baseVideo⟩) rfl

/-- C5: with the player handle absent, every media action reports `false`
and leaves the (absent) player unchanged, and — on an unsupported site — a
keydown such as `KeyM` is ignored entirely: no action executes, no
suppression happens, no state changes.  Exception-freedom is embedded by
every operation being a total function (the source wraps each boundary in
`try`/`catch`). -/
theorem absent_player_safe (dom : Dom) (cfg : Settings) (arb : ArbState)
    (e : KeyEvent) (now : ℕ) (p a : ℚ)
    (hsup : isSupportedPlatform dom.hostname = false) :
    seekForward dom cfg none (some a) = (false, none) ∧
    seekBackward dom cfg none (some a) = (false, none) ∧
    seekForwardExtended dom cfg none = (false, none) ∧
    seekBackwardExtended dom cfg none = (false, none) ∧
    seekToPercentage dom cfg none p = (false, none) ∧
    volumeUp cfg none (some a) = (false, none) ∧
    volumeDown cfg none (some a) = (false, none) ∧
    toggleMute cfg none = (false, none) ∧
    togglePlayPause cfg none dom.playResolves = (false, none, []) ∧
    showPlayPauseNotification cfg none = false ∧
    toggleCaptions dom none = (false, none) ∧
    toggleFullscreen dom none = (false, none) ∧
    handleKeyDown dom cfg arb none e now = (arb, none, []) := by
  have hsh : shouldHandleKey dom none e = false := by
    unfold shouldHandleKey
    split
    · rfl
    · split
      · rfl
      · simp [hsup]
  exact ⟨rfl, rfl, rfl, rfl, rfl, rfl, rfl, rfl, rfl, rfl, rfl, rfl, by
    simp [handleKeyDown, hsh]⟩

theorem absent_player_safe_witness :
    seekForward plainDom {} none (some 5) = (false, none) ∧
    seekBackward plainDom {} none (some 5) = (false, none) ∧
    seekForwardExtended plainDom {} none = (false, none) ∧
    seekBackwardExtended plainDom {} none = (false, none) ∧
    seekToPercentage plainDom {} none 50 = (false, none) ∧
    volumeUp {} none (some 5) = (false, none) ∧
    volumeDown {} none (some 5) = (false, none) ∧
    toggleMute {} none = (false, none) ∧
    togglePlayPause {} none plainDom.playResolves = (false, none, []) ∧
    showPlayPauseNotification {} none = false ∧
    toggleCaptions plainDom none = (false, none) ∧
    toggleFullscreen plainDom none = (false, none) ∧
    handleKeyDown plainDom {} {} none keyMEvent 0 = ({}, none, []) :=
  absent_player_safe plainDom {} {} keyMEvent 0 50 5 (by decide)

/-- C3 is false as stated: `volumeUp` does not clamp from below, so a
negative step drives the volume negative; `volumeDown` does not clamp from
above, so a starting volume above 1 stays above 1. -/
theorem volume_bounds_counterexample :
    ((volumeUp {} (some ⟨{ baseVideo with volume := 3 / 10 }⟩) (some (-(1 / 2)))).2 =
      some ⟨{ baseVideo with volume := -(1 / 5) }⟩) ∧
    ¬((0 : ℚ) ≤ -(1 / 5)) ∧
    ((volumeDown {} (some ⟨{ baseVideo with volume := 3 / 2 }⟩) (some (1 / 10))).2 =
      some ⟨{ baseVideo with volume := 7 / 5 }⟩) ∧
    ¬((7 / 5 : ℚ) ≤ 1) := by
  refine ⟨?_, by norm_num, ?_, by norm_num⟩
  · simp only [volumeUp, canControlVolume, Option.getD]
    norm_num [min_def]
  · simp only [volumeDown, canControlVolume, Option.getD]
    norm_num [max_def]

/-- C3 (amended): for a nonnegative step and a starting volume inside
`[0, 1]`, the volume after `volumeUp` or `volumeDown` stays inside `[0, 1]`;
in particular volume `0.95` plus step `0.1` yields exactly `1`. -/
theorem volume_bounds_amended (cfg : Settings) (cp : Option Player) (step : ℚ)
    (hs : 0 ≤ step) (hb : volumeInBounds cp = true) :
    volumeInBounds (volumeUp cfg cp (some step)).2 = true ∧
    volumeInBounds (volumeDown cfg cp (some step)).2 = true ∧
    (∀ pl : Player, cfg.enableVolumeControl = true → pl.video.volume = 19 / 20 →
      (volumeUp cfg (some pl) (some (1 / 10))).2 = some ⟨{ pl.video with volume := 1 }⟩) := by
  refine ⟨?_, ?_, ?_⟩
  · match cp with
    | none => rfl
    | some pl =>
      simp only [volumeInBounds, Bool.and_eq_true, decide_eq_true_eq] at hb
      simp only [volumeUp, Option.getD]
      split
      · simpa [volumeInBounds] using hb
      · simp only [volumeInBounds, Bool.and_eq_true, decide_eq_true_eq]
        constructor
        · exact le_min (by linarith [hb.1]) (by norm_num)
        · exact min_le_right _ _
  · match cp with
    | none => rfl
    | some pl =>
      simp only [volumeInBounds, Bool.and_eq_true, decide_eq_true_eq] at hb
      simp only [volumeDown, Option.getD]
      split
      · simpa [volumeInBounds] using hb
      · simp only [volumeInBounds, Bool.and_eq_true, decide_eq_true_eq]
        constructor
        · exact le_max_right _ _
        · exact max_le (by linarith [hb.2]) (by norm_num)
  · intro pl hv hvol
    simp only [volumeUp, canControlVolume, Option.isSome, hv, Option.getD, hvol]
    norm_num [min_def]

/-- The position is in bounds when it is nonnegative and below every finite
duration. -/
theorem posInBounds_mk (v : Video) (h0 : 0 ≤ v.currentTime)
    (hub : ∀ d, v.duration = Dur.fin d → v.currentTime ≤ d) :
    posInBounds v = true := by
  unfold posInBounds
  rcases hd : v.duration with _ | _ | d
  · simp [h0]
  · simp [h0]
  · simp [h0, hub d hd]

theorem posInBounds_elim {v : Video} (h : posInBounds v = true) :
    0 ≤ v.currentTime ∧ ∀ d, v.duration = Dur.fin d → v.currentTime ≤ d := by
  unfold posInBounds at h
  refine ⟨?_, ?_⟩
  · rcases hd : v.duration with _ | _ | d <;> rw [hd] at h <;>
      simp only [Bool.and_eq_true, decide_eq_true_eq, Bool.and_true] at h
    · exact h
    · exact h
    · exact h.1
  · intro d2 hd2
    rw [hd2] at h
    simp only [Bool.and_eq_true, decide_eq_true_eq] at h
    exact h.2

/-- The Hulu relative-seek fallback never drives the position negative (from
a nonnegative start) and never touches the duration. -/
theorem attemptHuluSeekFallback_bounds (dom : Dom) (v : Video) (amount : ℚ) (fwd : Bool)
    (hct : 0 ≤ v.currentTime) :
    0 ≤ (attemptHuluSeekFallback dom v amount fwd).2.currentTime ∧
    (attemptHuluSeekFallback dom v amount fwd).2.duration = v.duration := by
  unfold attemptHuluSeekFallback
  by_cases h1 : (fwd && dom.huluForwardButtonVisible) = true
  · rw [if_pos h1]
    exact ⟨hct, rfl⟩
  rw [if_neg h1]
  by_cases h2 : (!fwd && dom.huluRewindButtonVisible) = true
  · rw [if_pos h2]
    exact ⟨hct, rfl⟩
  rw [if_neg h2]
  by_cases h3 : dom.huluSeekBarPresent = true
  · rw [if_pos h3]
    exact ⟨hct, rfl⟩
  rw [if_neg h3]
  dsimp only
  by_cases h4 : (0 : ℚ) ≤
      (if fwd = true then v.currentTime + amount else max (v.currentTime - amount) 0)
  · rw [if_pos h4]
    exact ⟨h4, rfl⟩
  · rw [if_neg h4]
    exact ⟨hct, rfl⟩

/-- The Hulu percentage-seek fallback, on a video whose duration is
`Infinity` (the only way it is reachable past `canSeek`): the position stays
nonnegative and the duration stays `Infinity`. -/
theorem attemptHuluPercentageSeekFallback_inf (dom : Dom) (v : Video) (p : ℚ)
    (hct : 0 ≤ v.currentTime) (hd : v.duration = Dur.inf) :
    0 ≤ (attemptHuluPercentageSeekFallback dom v p).2.currentTime ∧
    (attemptHuluPercentageSeekFallback dom v p).2.duration = Dur.inf := by
  unfold attemptHuluPercentageSeekFallback
  by_cases h1 : dom.huluSeekBarPresent = true
  · rw [if_pos h1]
    exact ⟨hct, hd⟩
  rw [if_neg h1]
  rw [hd]
  dsimp only
  by_cases h2 : (0 : ℚ) ≤ p / 100 * 2700 ∧ p / 100 * 2700 ≤ 2700
  · rw [if_pos h2]
    exact ⟨h2.1, rfl⟩
  · rw [if_neg h2]
    exact ⟨hct, hd⟩

/-- A video that passes `canSeek` but fails the standard metadata check has
`duration = Infinity`. -/
theorem duration_inf_of_canSeek_noMeta {pl : Player} (hcs : canSeek (some pl) = true)
    (hma : metadataAvailable pl.video = false) : pl.video.duration = Dur.inf := by
  rcases hd : pl.video.duration with _ | _ | d
  · simp [canSeek, hd] at hcs
  · rfl
  · simp [canSeek, hd] at hcs
    simp [metadataAvailable, hd] at hma
    exact absurd hcs (not_lt.mpr hma)

theorem metadataAvailable_false_of_noWait {onHulu : Bool} {v : Video}
    (hw : waitForVideoMetadata onHulu v = false) : metadataAvailable v = false := by
  simp only [waitForVideoMetadata, Bool.or_eq_false_iff] at hw
  exact hw.1

/-! Per-branch reduction equations for the seek operations. -/

theorem seekForward_eq_cantSeek (dom : Dom) (cfg : Settings) (pl : Player) (a? : Option ℚ)
    (hcs : canSeek (some pl) = false) :
    seekForward dom cfg (some pl) a? = (false, some pl) := by
  simp only [seekForward]
  rw [hcs]
  rfl

theorem seekForward_eq_fin (dom : Dom) (cfg : Settings) (pl : Player) (a : ℚ) (d : ℚ)
    (hcs : canSeek (some pl) = true)
    (hw : waitForVideoMetadata (strIncludes dom.hostname huluHost) pl.video = true)
    (hd : pl.video.duration = Dur.fin d) :
    seekForward dom cfg (some pl) (some a) =
      (true, some ⟨{ pl.video with currentTime := min (pl.video.currentTime + a) d }⟩) := by
  simp only [seekForward]
  rw [hcs, hw, hd]
  rfl

theorem seekForward_eq_inf (dom : Dom) (cfg : Settings) (pl : Player) (a : ℚ)
    (hcs : canSeek (some pl) = true)
    (hw : waitForVideoMetadata (strIncludes dom.hostname huluHost) pl.video = true)
    (hd : pl.video.duration = Dur.inf) :
    seekForward dom cfg (some pl) (some a) =
      (true, some ⟨{ pl.video with currentTime := pl.video.currentTime + a }⟩) := by
  simp only [seekForward]
  rw [hcs, hw, hd]
  rfl

theorem seekForward_eq_fallback (dom : Dom) (cfg : Settings) (pl : Player) (a : ℚ)
    (hcs : canSeek (some pl) = true)
    (hw : waitForVideoMetadata (strIncludes dom.hostname huluHost) pl.video = false)
    (hh : strIncludes dom.hostname huluHost = true) :
    seekForward dom cfg (some pl) (some a) =
      ((attemptHuluSeekFallback dom pl.video a true).1,
       some ⟨(attemptHuluSeekFallback dom pl.video a true).2⟩) := by
  simp only [seekForward]
  rw [hcs, hw, hh]
  rfl

theorem seekForward_eq_noWait (dom : Dom) (cfg : Settings) (pl : Player) (a : ℚ)
    (hcs : canSeek (some pl) = true)
    (hw : waitForVideoMetadata (strIncludes dom.hostname huluHost) pl.video = false)
    (hh : strIncludes dom.hostname huluHost = false) :
    seekForward dom cfg (some pl) (some a) = (false, some pl) := by
  simp only [seekForward]
  rw [hcs, hw, hh]
  rfl

theorem seekBackward_eq_cantSeek (dom : Dom) (cfg : Settings) (pl : Player) (a? : Option ℚ)
    (hcs : canSeek (some pl) = false) :
    seekBackward dom cfg (some pl) a? = (false, some pl) := by
  simp only [seekBackward]
  rw [hcs]
  rfl

theorem seekBackward_eq_main (dom : Dom) (cfg : Settings) (pl : Player) (a : ℚ)
    (hcs : canSeek (some pl) = true)
    (hw : waitForVideoMetadata (strIncludes dom.hostname huluHost) pl.video = true) :
    seekBackward dom cfg (some pl) (some a) =
      (true, some ⟨{ pl.video with currentTime := max (pl.video.currentTime - a) 0 }⟩) := by
  simp only [seekBackward]
  rw [hcs, hw]
  rfl

theorem seekBackward_eq_fallback (dom : Dom) (cfg : Settings) (pl : Player) (a : ℚ)
    (hcs : canSeek (some pl) = true)
    (hw : waitForVideoMetadata (strIncludes dom.hostname huluHost) pl.video = false)
    (hh : strIncludes dom.hostname huluHost = true) :
    seekBackward dom cfg (some pl) (some a) =
      ((attemptHuluSeekFallback dom pl.video a false).1,
       some ⟨(attemptHuluSeekFallback dom pl.video a false).2⟩) := by
  simp only [seekBackward]
  rw [hcs, hw, hh]
  rfl

theorem seekBackward_eq_noWait (dom : Dom) (cfg : Settings) (pl : Player) (a : ℚ)
    (hcs : canSeek (some pl) = true)
    (hw : waitForVideoMetadata (strIncludes dom.hostname huluHost) pl.video = false)
    (hh : strIncludes dom.hostname huluHost = false) :
    seekBackward dom cfg (some pl) (some a) = (false, some pl) := by
  simp only [seekBackward]
  rw [hcs, hw, hh]
  rfl

theorem seekToPercentage_eq_cantSeek (dom : Dom) (cfg : Settings) (pl : Player) (p : ℚ)
    (hcs : canSeek (some pl) = false) :
    seekToPercentage dom cfg (some pl) p = (false, some pl) := by
  simp only [seekToPercentage]
  rw [hcs]
  rfl

theorem seekToPercentage_eq_fin (dom : Dom) (cfg : Settings) (pl : Player) (p : ℚ) (d : ℚ)
    (hcs : canSeek (some pl) = true)
    (hw : waitForVideoMetadata (strIncludes dom.hostname huluHost) pl.video = true)
    (hd : pl.video.duration = Dur.fin d) (hpos : ¬p / 100 * d < 0) :
    seekToPercentage dom cfg (some pl) p =
      (true, some ⟨{ pl.video with currentTime := p / 100 * d }⟩) := by
  simp only [seekToPercentage]
  rw [hcs, hw, hd]
  exact if_neg hpos

theorem seekToPercentage_eq_inf (dom : Dom) (cfg : Settings) (pl : Player) (p : ℚ)
    (hcs : canSeek (some pl) = true)
    (hw : waitForVideoMetadata (strIncludes dom.hostname huluHost) pl.video = true)
    (hd : pl.video.duration = Dur.inf) :
    seekToPercentage dom cfg (some pl) p = (false, some pl) := by
  simp only [seekToPercentage]
  rw [hcs, hw, hd]
  rfl

theorem seekToPercentage_eq_fallback (dom : Dom) (cfg : Settings) (pl : Player) (p : ℚ)
    (hcs : canSeek (some pl) = true)
    (hw : waitForVideoMetadata (strIncludes dom.hostname huluHost) pl.video = false)
    (hh : strIncludes dom.hostname huluHost = true) :
    seekToPercentage dom cfg (some pl) p =
      ((attemptHuluPercentageSeekFallback dom pl.video p).1,
       some ⟨(attemptHuluPercentageSeekFallback dom pl.video p).2⟩) := by
  simp only [seekToPercentage]
  rw [hcs, hw, hh]
  rfl

theorem seekToPercentage_eq_noWait (dom : Dom) (cfg : Settings) (pl : Player) (p : ℚ)
    (hcs : canSeek (some pl) = true)
    (hw : waitForVideoMetadata (strIncludes dom.hostname huluHost) pl.video = false)
    (hh : strIncludes dom.hostname huluHost = false) :
    seekToPercentage dom cfg (some pl) p = (false, some pl) := by
  simp only [seekToPercentage]
  rw [hcs, hw, hh]
  rfl

/-- If the position of `pl.video` is in bounds, so is the position after
`seekForward` with a nonnegative amount. -/
theorem seekForward_inBounds (dom : Dom) (cfg : Settings) (pl : Player) (a : ℚ)
    (ha : 0 ≤ a) (hb : posInBounds pl.video = true) :
    playerInBounds (seekForward dom cfg (some pl) (some a)).2 = true := by
  obtain ⟨h0, hub⟩ := posInBounds_elim hb
  by_cases hcs : canSeek (some pl) = true
  · by_cases hw : waitForVideoMetadata (strIncludes dom.hostname huluHost) pl.video = true
    · rcases hd : pl.video.duration with _ | _ | d
      · simp [canSeek, hd] at hcs
      · rw [seekForward_eq_inf dom cfg pl a hcs hw hd]
        refine posInBounds_mk _ (add_nonneg h0 ha) ?_
        intro d2 hd2
        have h2 : pl.video.duration = Dur.fin d2 := hd2
        rw [hd] at h2
        cases h2
      · have hdpos : 0 < d := by simpa [canSeek, hd] using hcs
        rw [seekForward_eq_fin dom cfg pl a d hcs hw hd]
        refine posInBounds_mk _ (le_min (add_nonneg h0 ha) (le_of_lt hdpos)) ?_
        intro d2 hd2
        have h2 : pl.video.duration = Dur.fin d2 := hd2
        rw [hd] at h2
        injection h2 with h3
        exact h3 ▸ min_le_right (pl.video.currentTime + a) d
    · rw [Bool.not_eq_true] at hw
      have hinf := duration_inf_of_canSeek_noMeta hcs (metadataAvailable_false_of_noWait hw)
      by_cases hh : strIncludes dom.hostname huluHost = true
      · rw [seekForward_eq_fallback dom cfg pl a hcs hw hh]
        have hfb := attemptHuluSeekFallback_bounds dom pl.video a true h0
        refine posInBounds_mk _ hfb.1 ?_
        intro d2 hd2
        have h2 : (attemptHuluSeekFallback dom pl.video a true).2.duration = Dur.fin d2 := hd2
        rw [hfb.2, hinf] at h2
        cases h2
      · rw [Bool.not_eq_true] at hh
        rw [seekForward_eq_noWait dom cfg pl a hcs hw hh]
        exact hb
  · rw [Bool.not_eq_true] at hcs
    rw [seekForward_eq_cantSeek dom cfg pl (some a) hcs]
    exact hb

/-- If the position of `pl.video` is in bounds, so is the position after
`seekBackward` with a nonnegative amount. -/
theorem seekBackward_inBounds (dom : Dom) (cfg : Settings) (pl : Player) (a : ℚ)
    (ha : 0 ≤ a) (hb : posInBounds pl.video = true) :
    playerInBounds (seekBackward dom cfg (some pl) (some a)).2 = true := by
  obtain ⟨h0, hub⟩ := posInBounds_elim hb
  by_cases hcs : canSeek (some pl) = true
  · by_cases hw : waitForVideoMetadata (strIncludes dom.hostname huluHost) pl.video = true
    · rw [seekBackward_eq_main dom cfg pl a hcs hw]
      refine posInBounds_mk _ (le_max_right _ _) ?_
      intro d2 hd2
      have h2 : pl.video.duration = Dur.fin d2 := hd2
      have hd2pos : 0 < d2 := by simpa [canSeek, h2] using hcs
      have hup : pl.video.currentTime - a ≤ d2 := by linarith [hub d2 h2]
      exact max_le hup (le_of_lt hd2pos)
    · rw [Bool.not_eq_true] at hw
      have hinf := duration_inf_of_canSeek_noMeta hcs (metadataAvailable_false_of_noWait hw)
      by_cases hh : strIncludes dom.hostname huluHost = true
      · rw [seekBackward_eq_fallback dom cfg pl a hcs hw hh]
        have hfb := attemptHuluSeekFallback_bounds dom pl.video a false h0
        refine posInBounds_mk _ hfb.1 ?_
        intro d2 hd2
        have h2 : (attemptHuluSeekFallback dom pl.video a false).2.duration = Dur.fin d2 := hd2
        rw [hfb.2, hinf] at h2
        cases h2
      · rw [Bool.not_eq_true] at hh
        rw [seekBackward_eq_noWait dom cfg pl a hcs hw hh]
        exact hb
  · rw [Bool.not_eq_true] at hcs
    rw [seekBackward_eq_cantSeek dom cfg pl (some a) hcs]
    exact hb

/-- If the position of `pl.video` is in bounds, so is the position after
`seekToPercentage` with a percentage in `[0, 100]`. -/
theorem seekToPercentage_inBounds (dom : Dom) (cfg : Settings) (pl : Player) (p : ℚ)
    (hp0 : 0 ≤ p) (hp1 : p ≤ 100) (hb : posInBounds pl.video = true) :
    playerInBounds (seekToPercentage dom cfg (some pl) p).2 = true := by
  obtain ⟨h0, hub⟩ := posInBounds_elim hb
  by_cases hcs : canSeek (some pl) = true
  · by_cases hw : waitForVideoMetadata (strIncludes dom.hostname huluHost) pl.video = true
    · rcases hd : pl.video.duration with _ | _ | d
      · simp [canSeek, hd] at hcs
      · rw [seekToPercentage_eq_inf dom cfg pl p hcs hw hd]
        exact hb
      · have hdpos : 0 < d := by simpa [canSeek, hd] using hcs
        have hnt : (0 : ℚ) ≤ p / 100 * d := by positivity
        rw [seekToPercentage_eq_fin dom cfg pl p d hcs hw hd (not_lt.mpr hnt)]
        refine posInBounds_mk _ hnt ?_
        intro d2 hd2
        have h2 : pl.video.duration = Dur.fin d2 := hd2
        rw [hd] at h2
        injection h2 with h3
        subst h3
        calc p / 100 * d ≤ 100 / 100 * d := by
              apply mul_le_mul_of_nonneg_right _ (le_of_lt hdpos)
              linarith
          _ = d := by norm_num
    · rw [Bool.not_eq_true] at hw
      have hinf := duration_inf_of_canSeek_noMeta hcs (metadataAvailable_false_of_noWait hw)
      by_cases hh : strIncludes dom.hostname huluHost = true
      · rw [seekToPercentage_eq_fallback dom cfg pl p hcs hw hh]
        have hfb := attemptHuluPercentageSeekFallback_inf dom pl.video p h0 hinf
        refine posInBounds_mk _ hfb.1 ?_
        intro d2 hd2
        have h2 : (attemptHuluPercentageSeekFallback dom pl.video p).2.duration = Dur.fin d2 := hd2
        rw [hfb.2] at h2
        cases h2
      · rw [Bool.not_eq_true] at hh
        rw [seekToPercentage_eq_noWait dom cfg pl p hcs hw hh]
        exact hb
  · rw [Bool.not_eq_true] at hcs
    rw [seekToPercentage_eq_cantSeek dom cfg pl p hcs]
    exact hb

/-- C1 is false as stated: with an out-of-range percentage, a negative delta,
or a starting position outside `[0, duration]`, the resulting position
escapes `[0, duration]`: percentage 110 of a 200s video seeks to 220s;
seekForward by −5 at 2s seeks to −3s; seekBackward by −5 at 198s of a 200s
video seeks to 203s; seekForward by 5 from position −10 seeks to −5s. -/
theorem seek_bounds_counterexample :
    ((seekToPercentage plainDom {} (some ⟨baseVideo⟩) 110).2 =
      some ⟨{ baseVideo with currentTime := 220 }⟩) ∧
    ¬((220 : ℚ) ≤ 200) ∧
    ((seekForward plainDom {} (some ⟨{ baseVideo with currentTime := 2 }⟩) (some (-5))).2 =
      some ⟨{ baseVideo with currentTime := -3 }⟩) ∧
    ¬((0 : ℚ) ≤ -3) ∧
    ((seekBackward plainDom {} (some ⟨{ baseVideo with currentTime := 198 }⟩) (some (-5))).2 =
      some ⟨{ baseVideo with currentTime := 203 }⟩) ∧
    ¬((203 : ℚ) ≤ 200) ∧
    ((seekForward plainDom {} (some ⟨{ baseVideo with currentTime := -10 }⟩) (some 5)).2 =
      some ⟨{ baseVideo with currentTime := -5 }⟩) ∧
    ¬((0 : ℚ) ≤ -5) := by
  refine ⟨?_, by norm_num, ?_, by norm_num, ?_, by norm_num, ?_, by norm_num⟩
  · simp only [seekToPercentage, canSeek, baseVideo, waitForVideoMetadata, metadataAvailable]
    norm_num
  · simp only [seekForward, canSeek, baseVideo, waitForVideoMetadata, metadataAvailable,
      Option.getD]
    norm_num [min_def]
  · simp only [seekBackward, canSeek, baseVideo, waitForVideoMetadata, metadataAvailable,
      Option.getD]
    norm_num [max_def]
  · simp only [seekForward, canSeek, baseVideo, waitForVideoMetadata, metadataAvailable,
      Option.getD]
    norm_num [min_def]

/-- C1 (amended): for a nonnegative requested delta, a percentage within
`[0, 100]`, and a starting position within `[0, duration]`, the position after
`seekForward`, `seekBackward` or `seekToPercentage` stays within
`[0, duration]` (on every path, including the Hulu fallbacks; when the
duration is `Infinity` the upper bound is vacuous); in particular
`ArrowRight`'s seekForward with base amount 5s at 198s of a 200s video yields
exactly 200s, not 203s, and seekBackward by 5s at 2s yields exactly 0. -/
theorem seek_bounds_amended (dom : Dom) (cfg : Settings) (cp : Option Player)
    (amount p : ℚ) (ha : 0 ≤ amount) (hp0 : 0 ≤ p) (hp1 : p ≤ 100)
    (hb : playerInBounds cp = true) :
    playerInBounds (seekForward dom cfg cp (some amount)).2 = true ∧
    playerInBounds (seekBackward dom cfg cp (some amount)).2 = true ∧
    playerInBounds (seekToPercentage dom cfg cp p).2 = true ∧
    (∀ pl : Player, cfg.seekAmount = 5 → pl.video.duration = Dur.fin 200 →
      pl.video.currentTime = 198 →
      (seekForward dom cfg (some pl) none).2 = some ⟨{ pl.video with currentTime := 200 }⟩) ∧
    (∀ pl : Player, pl.video.duration = Dur.fin 200 → pl.video.currentTime = 2 →
      (seekBackward dom cfg (some pl) (some 5)).2 = some ⟨{ pl.video with currentTime := 0 }⟩) := by
  refine ⟨?_, ?_, ?_, ?_, ?_⟩
  · match cp with
    | none => rfl
    | some pl => exact seekForward_inBounds dom cfg pl amount ha (by simpa [playerInBounds] using hb)
  · match cp with
    | none => rfl
    | some pl => exact seekBackward_inBounds dom cfg pl amount ha (by simpa [playerInBounds] using hb)
  · match cp with
    | none => rfl
    | some pl => exact seekToPercentage_inBounds dom cfg pl p hp0 hp1 (by simpa [playerInBounds] using hb)
  · intro pl hcfg hd hct
    have hmeta : metadataAvailable pl.video = true := by
      simp [metadataAvailable, hd]
    simp only [seekForward, canSeek, hd, Option.getD, getSeekAmounts, hcfg,
      waitForVideoMetadata, hmeta, Bool.true_or, if_true, hct]
    norm_num [min_def]
  · intro pl hd hct
    have hmeta : metadataAvailable pl.video = true := by
      simp [metadataAvailable, hd]
    simp only [seekBackward, canSeek, hd, Option.getD,
      waitForVideoMetadata, hmeta, Bool.true_or, if_true, hct]
    norm_num [max_def]

theorem seek_bounds_amended_witness :
    playerInBounds (seekForward plainDom {} (some ⟨baseVideo⟩) (some 5)).2 = true ∧
    playerInBounds (seekBackward plainDom {} (some ⟨baseVideo⟩) (some 5)).2 = true ∧
    playerInBounds (seekToPercentage plainDom {} (some ⟨baseVideo⟩) 50).2 = true ∧
    (∀ pl : Player, Settings.seekAmount {} = 5 → pl.video.duration = Dur.fin 200 →
      pl.video.currentTime = 198 →
      (seekForward plainDom {} (some pl) none).2 = some ⟨{ pl.video with currentTime := 200 }⟩) ∧
    (∀ pl : Player, pl.video.duration = Dur.fin 200 → pl.video.currentTime = 2 →
      (seekBackward plainDom {} (some pl) (some 5)).2 = some ⟨{ pl.video with currentTime := 0 }⟩) :=
  seek_bounds_amended plainDom {} (some ⟨baseVideo⟩) 5 50 (by norm_num) (by norm_num)
    (by norm_num) (by norm_num [playerInBounds, posInBounds, baseVideo])

/-- C8: every digit key `Digit d` maps to `seekToPercentage` with fixed
parameter `10×d`, and `seekToPercentage` on a video with finite positive
duration (metadata available) sets the position to `percentage/100 ×
duration`; in particular `Digit5` on a 200s video yields position 100s. -/
theorem digit_percentage_seek (i : Fin 10) (dom : Dom) (cfg : Settings) (pl : Player)
    (d : ℚ) (hd : pl.video.duration = Dur.fin d) (hdpos : 0 < d)
    (hw : waitForVideoMetadata (strIncludes dom.hostname huluHost) pl.video = true) :
    (∃ mp, lookupMapping defaultKeyMappings ("Digit" ++ toString i.val) = some mp ∧
       mp.action = "seekToPercentage" ∧ mp.params = [(i.val : ℚ) * 10] ∧
       mp.platformHandled = false) ∧
    (seekToPercentage dom cfg (some pl) ((i.val : ℚ) * 10)).2 =
      some ⟨{ pl.video with currentTime := (i.val : ℚ) * 10 / 100 * d }⟩ ∧
    (i = 5 → d = 200 → (i.val : ℚ) * 10 / 100 * d = 100) := by
  refine ⟨⟨(digitMapping i.val).2, ?_, rfl, rfl, rfl⟩, ?_, ?_⟩
  · fin_cases i <;> rfl
  · have hcs : canSeek (some pl) = true := by simp [canSeek, hd, hdpos]
    have hnt : (0 : ℚ) ≤ (i.val : ℚ) * 10 / 100 * d := by positivity
    rw [seekToPercentage_eq_fin dom cfg pl ((i.val : ℚ) * 10) d hcs hw hd (not_lt.mpr hnt)]
  · intro hi hd200
    subst hi
    subst hd200
    norm_num [show ((5 : Fin 10) : ℕ) = 5 from rfl]

theorem digit_percentage_seek_witness :
    (∃ mp, lookupMapping defaultKeyMappings ("Digit" ++ toString (5 : Fin 10).val) = some mp ∧
       mp.action = "seekToPercentage" ∧ mp.params = [(((5 : Fin 10).val : ℚ)) * 10] ∧
       mp.platformHandled = false) ∧
    (seekToPercentage plainDom {} (some ⟨baseVideo⟩) (((5 : Fin 10).val : ℚ) * 10)).2 =
      some ⟨{ baseVideo with currentTime := ((5 : Fin 10).val : ℚ) * 10 / 100 * 200 }⟩ ∧
    ((5 : Fin 10) = 5 → (200 : ℚ) = 200 → ((5 : Fin 10).val : ℚ) * 10 / 100 * 200 = 100) :=
  digit_percentage_seek 5 plainDom {} ⟨baseVideo⟩ 200 rfl (by norm_num)
    (by simp [waitForVideoMetadata, metadataAvailable, baseVideo])

/-- Entries looked up in a table whose rows all leave the `preventDefault`
field unset have it unset. -/
theorem lookup_flag_false {l : List (String × KeyMapping)}
    (hall : ∀ e ∈ l, e.2.preventDefaultFlag = false) :
    ∀ k mp, lookupMapping l k = some mp → mp.preventDefaultFlag = false := by
  induction l with
  | nil => intro k mp h; cases h
  | cons hd tl ih =>
    intro k mp h
    obtain ⟨kk, mm⟩ := hd
    simp only [lookupMapping] at h
    split at h
    · obtain rfl : mm = mp := by injection h
      exact hall (kk, mm) (List.mem_cons_self _ _)
    · exact ih (fun e he => hall e (List.mem_cons_of_mem _ he)) k mp h

theorem preventParamountConflicts_platformHandled {mappings : List (String × KeyMapping)}
    {key : String} {mp : KeyMapping} (hm : lookupMapping mappings key = some mp)
    (hph : mp.platformHandled = true) :
    preventParamountConflicts mappings key = [] := by
  unfold preventParamountConflicts
  split
  · simp [hm, hph]
  · rfl

theorem preventHuluConflicts_platformHandled {mappings : List (String × KeyMapping)}
    {key : String} {mp : KeyMapping} (hm : lookupMapping mappings key = some mp)
    (hph : mp.platformHandled = true) :
    preventHuluConflicts mappings key = [] := by
  unfold preventHuluConflicts
  split
  · simp [hm, hph]
  · rfl

/-- `preventPlatformConflicts` emits nothing at all for a platform-handled
mapping whose `preventDefault` field is unset. -/
theorem preventPlatformConflicts_platformHandled (dom : Dom) (arb : ArbState)
    (cp : Option Player) (e : KeyEvent) {mp : KeyMapping}
    (hm : lookupMapping arb.keyMappings (getKeyIdentifier e) = some mp)
    (hph : mp.platformHandled = true) (hpdf : mp.preventDefaultFlag = false) :
    preventPlatformConflicts dom arb cp e = [] := by
  unfold preventPlatformConflicts
  split
  · rfl
  · rcases hpc : getPlatformConfig dom.hostname with _ | pc
    · simp [hm, hpdf, hpc]
    · simp [hm, hpdf, hpc,
        preventParamountConflicts_platformHandled hm hph,
        preventHuluConflicts_platformHandled hm hph]

/-- `executeAction` emits no suppression for a platform-handled mapping. -/
theorem executeAction_platformHandled (dom : Dom) (cfg : Settings) (cp : Option Player)
    (mp : KeyMapping) (hph : mp.platformHandled = true) :
    ∀ o ∈ (executeAction dom cfg cp mp).2, suppressionObs o = false := by
  unfold executeAction
  rcases h : runAction dom cfg cp mp.action mp.params with _ | ⟨isAsync, result, cp2⟩
  · simp
  · split <;> simp [hph, suppressionObs]

/-- C4: for a keydown whose entry in the default key-mapping table is flagged
`platformHandled` (`Space`), the handler calls no event-cancellation
primitive: neither `preventDefault` nor `stopPropagation` (nor
`stopImmediatePropagation`), on any site, in the per-site suppression paths
and in the action-execution path alike. -/
theorem platformHandled_no_suppression (dom : Dom) (cfg : Settings) (arb : ArbState)
    (cp : Option Player) (e : KeyEvent) (now : ℕ) (mp : KeyMapping)
    (htab : arb.keyMappings = defaultKeyMappings)
    (hm : lookupMapping arb.keyMappings (getKeyIdentifier e) = some mp)
    (hph : mp.platformHandled = true) :
    ∀ o ∈ (handleKeyDown dom cfg arb cp e now).2.2, suppressionObs o = false := by
  have hpdf : mp.preventDefaultFlag = false :=
    lookup_flag_false (by decide) _ _ (htab ▸ hm)
  simp only [handleKeyDown, hm]
  split
  · simp
  · split
    · simp
    · have hppc : ∀ cpx, preventPlatformConflicts dom
          { arb with pressedKeys := addPressedKey arb.pressedKeys (getKeyIdentifier e),
                     lastKeyTime := now } cpx e = [] :=
        fun cpx => preventPlatformConflicts_platformHandled dom _ cpx e hm hph hpdf
      simp only [hppc, ite_self, List.append_nil, List.nil_append]
      exact executeAction_platformHandled dom cfg cp mp hph

theorem platformHandled_no_suppression_witness :
    List.countP suppressionObs (handleKeyDown huluDom {} {} (some ⟨baseVideo⟩)
      { code := "Space", key := " " } 1000).2.2 = 0 :=
  List.countP_eq_zero.mpr (fun o ho => by
    rw [platformHandled_no_suppression huluDom {} {} (some ⟨baseVideo⟩)
      { code := "Space", key := " " } 1000
      { action := "showPlayPauseNotification", description := "Play/Pause",
        category := "playback", platformHandled := true }
      rfl rfl rfl o ho]
    exact Bool.false_ne_true)

theorem execObs_false_of_suppression {o : Obs} (h : suppressionObs o = true) :
    execObs o = false := by
  cases o <;> simp_all [suppressionObs, execObs]

theorem mem_preventParamountConflicts (m : List (String × KeyMapping)) (k : String) :
    ∀ o ∈ preventParamountConflicts m k, suppressionObs o = true := by
  unfold preventParamountConflicts
  split
  · split
    · split
      · simp
      · intro o ho
        fin_cases ho <;> rfl
    · simp
  · simp

theorem mem_preventHuluConflicts (m : List (String × KeyMapping)) (k : String) :
    ∀ o ∈ preventHuluConflicts m k, suppressionObs o = true := by
  unfold preventHuluConflicts
  split
  · split
    · split
      · simp
      · intro o ho
        fin_cases ho <;> rfl
    · simp
  · simp

/-- Everything `preventPlatformConflicts` emits is a suppression call. -/
theorem mem_preventPlatformConflicts (dom : Dom) (arb : ArbState) (cp : Option Player)
    (e : KeyEvent) :
    ∀ o ∈ preventPlatformConflicts dom arb cp e, suppressionObs o = true := by
  unfold preventPlatformConflicts
  split
  · simp
  · intro o ho
    rw [List.mem_append] at ho
    rcases ho with ho | ho
    · revert ho
      rcases lookupMapping arb.keyMappings (getKeyIdentifier e) with _ | m
      · simp
      · dsimp only
        by_cases hf : m.preventDefaultFlag = true
        · rw [if_pos hf]
          intro ho
          fin_cases ho <;> rfl
        · rw [if_neg hf]
          simp
    · revert ho
      rcases getPlatformConfig dom.hostname with _ | pc
      · simp
      · dsimp only
        by_cases hn : pc.needsConflictPrevention = true
        · rw [if_pos hn]
          by_cases hp : strIncludes dom.hostname paramountHost = true
          · rw [if_pos hp]
            exact mem_preventParamountConflicts _ _ o
          · rw [if_neg hp]
            by_cases hh : strIncludes dom.hostname huluHost = true
            · rw [if_pos hh]
              exact mem_preventHuluConflicts _ _ o
            · rw [if_neg hh]
              simp
        · rw [if_neg hn]
          simp

theorem countP_exec_ppc (dom : Dom) (arb : ArbState) (cp : Option Player) (e : KeyEvent) :
    List.countP execObs (preventPlatformConflicts dom arb cp e) = 0 :=
  List.countP_eq_zero.mpr (fun o ho => by
    simp [execObs_false_of_suppression (mem_preventPlatformConflicts dom arb cp e o ho)])

/-- When the dispatched action exists, `executeAction` emits its execution
first, followed only by suppression calls. -/
theorem executeAction_eq_cons (dom : Dom) (cfg : Settings) (cp : Option Player)
    (mp : KeyMapping) (h : (runAction dom cfg cp mp.action mp.params).isSome = true) :
    ∃ tail, (executeAction dom cfg cp mp).2 = Obs.exec mp.action :: tail ∧
      ∀ o ∈ tail, suppressionObs o = true := by
  unfold executeAction
  rcases hr : runAction dom cfg cp mp.action mp.params with _ | ⟨isAsync, result, cp2⟩
  · rw [hr] at h
    cases h
  · simp only [hr]
    split
    · refine ⟨_, rfl, ?_⟩
      split
      · intro o ho
        fin_cases ho <;> rfl
      · simp
    · refine ⟨_, rfl, ?_⟩
      split
      · intro o ho
        fin_cases ho <;> rfl
      · simp

theorem execCount_executeAction (dom : Dom) (cfg : Settings) (cp : Option Player)
    (mp : KeyMapping) (h : (runAction dom cfg cp mp.action mp.params).isSome = true) :
    execCount (executeAction dom cfg cp mp).2 = 1 := by
  obtain ⟨tail, ht, hsup⟩ := executeAction_eq_cons dom cfg cp mp h
  have htail : List.countP execObs tail = 0 :=
    List.countP_eq_zero.mpr (fun o ho => by
      simp [execObs_false_of_suppression (hsup o ho)])
  rw [ht]
  unfold execCount
  rw [List.countP_cons_of_pos _ _ (show execObs (Obs.exec mp.action) = true from rfl), htail]

theorem addPressedKey_contains (l : List String) (k : String) :
    (addPressedKey l k).contains k = true := by
  unfold addPressedKey
  split
  · assumption
  · simp

/-- Reduction of `handleKeyDown` for an applicable, mapped, non-debounced
event: state update, the policy-ordered suppression/action/suppression trace. -/
theorem handleKeyDown_eq_run (dom : Dom) (cfg : Settings) (arb : ArbState)
    (cp : Option Player) (e : KeyEvent) (now : ℕ) (mp : KeyMapping)
    (hen : arb.isEnabled = true) (hsh : shouldHandleKey dom cp e = true)
    (hm : lookupMapping arb.keyMappings (getKeyIdentifier e) = some mp)
    (hdeb : (arb.pressedKeys.contains (getKeyIdentifier e) &&
        decide (now - arb.lastKeyTime < keyRepeatDelay)) = false) :
    handleKeyDown dom cfg arb cp e now =
      ({ arb with pressedKeys := addPressedKey arb.pressedKeys (getKeyIdentifier e),
                  lastKeyTime := now },
       (executeAction dom cfg cp mp).1,
       (if strIncludes dom.hostname huluHost &&
            (match getPlatformConfig dom.hostname with
             | some pc => pc.needsConflictPrevention
             | none => false) then
          preventPlatformConflicts dom
            { arb with pressedKeys := addPressedKey arb.pressedKeys (getKeyIdentifier e),
                       lastKeyTime := now } cp e
        else []) ++
       (executeAction dom cfg cp mp).2 ++
       (if !(strIncludes dom.hostname huluHost) then
          preventPlatformConflicts dom
            { arb with pressedKeys := addPressedKey arb.pressedKeys (getKeyIdentifier e),
                       lastKeyTime := now } (executeAction dom cfg cp mp).1 e
        else [])) := by
  simp only [handleKeyDown, hen, hsh, hm, hdeb, Bool.not_true, Bool.or_self,
    Bool.false_eq_true, if_false]

/-- Reduction of `handleKeyDown` for a repeat-debounced event: everything is
ignored and nothing changes. -/
theorem handleKeyDown_eq_debounced (dom : Dom) (cfg : Settings) (arb : ArbState)
    (cp : Option Player) (e : KeyEvent) (now : ℕ) (mp : KeyMapping)
    (hen : arb.isEnabled = true) (hsh : shouldHandleKey dom cp e = true)
    (hm : lookupMapping arb.keyMappings (getKeyIdentifier e) = some mp)
    (hdeb : (arb.pressedKeys.contains (getKeyIdentifier e) &&
        decide (now - arb.lastKeyTime < keyRepeatDelay)) = true) :
    handleKeyDown dom cfg arb cp e now = (arb, cp, []) := by
  simp only [handleKeyDown, hen, hsh, hm, hdeb, Bool.not_true, Bool.or_self,
    Bool.false_eq_true, if_false, if_true]

/-- C6: two keydown events with the same key code, no intervening keyup, less
than the 150ms re-trigger interval apart: the first (applicable, mapped,
dispatchable, not itself repeat-suppressed) event executes its action exactly
once, and the second is ignored — empty trace, arbitrator state (pressedKeys,
lastKeyTime) unchanged, player state unchanged. -/
theorem debounce_single_execution (dom : Dom) (cfg : Settings) (arb : ArbState)
    (cp : Option Player) (e1 e2 : KeyEvent) (now1 now2 : ℕ) (mp : KeyMapping)
    (hen : arb.isEnabled = true)
    (hsh1 : shouldHandleKey dom cp e1 = true)
    (hm : lookupMapping arb.keyMappings (getKeyIdentifier e1) = some mp)
    (hfresh : arb.pressedKeys.contains (getKeyIdentifier e1) = false)
    (hdisp : (runAction dom cfg cp mp.action mp.params).isSome = true)
    (hkey : getKeyIdentifier e2 = getKeyIdentifier e1)
    (hsh2 : shouldHandleKey dom (handleKeyDown dom cfg arb cp e1 now1).2.1 e2 = true)
    (hlt : now2 - now1 < keyRepeatDelay) :
    execCount (handleKeyDown dom cfg arb cp e1 now1).2.2 = 1 ∧
    handleKeyDown dom cfg (handleKeyDown dom cfg arb cp e1 now1).1
      (handleKeyDown dom cfg arb cp e1 now1).2.1 e2 now2 =
      ((handleKeyDown dom cfg arb cp e1 now1).1,
       (handleKeyDown dom cfg arb cp e1 now1).2.1, []) := by
  have hdeb1 : (arb.pressedKeys.contains (getKeyIdentifier e1) &&
      decide (now1 - arb.lastKeyTime < keyRepeatDelay)) = false := by
    rw [hfresh]
    rfl
  have h1 := handleKeyDown_eq_run dom cfg arb cp e1 now1 mp hen hsh1 hm hdeb1
  constructor
  · rw [h1]
    simp only [execCount, List.countP_append]
    have hB : List.countP execObs (executeAction dom cfg cp mp).2 = 1 :=
      execCount_executeAction dom cfg cp mp hdisp
    rw [hB]
    split
    · rw [countP_exec_ppc]
      split
      · rw [countP_exec_ppc]
      · rfl
    · split
      · rw [countP_exec_ppc]
        rfl
      · rfl
  · rw [h1] at hsh2 ⊢
    apply handleKeyDown_eq_debounced dom cfg _ _ e2 now2 mp
    · exact hen
    · exact hsh2
    · rw [hkey]
      exact hm
    · show ((addPressedKey arb.pressedKeys (getKeyIdentifier e1)).contains
          (getKeyIdentifier e2) && decide (now2 - now1 < keyRepeatDelay)) = true
      rw [hkey, addPressedKey_contains]
      simp [hlt]

theorem debounce_single_execution_witness :
    execCount (handleKeyDown plainDom {} {} (some ⟨baseVideo⟩) keyMEvent 1000).2.2 = 1 ∧
    handleKeyDown plainDom {} (handleKeyDown plainDom {} {} (some ⟨baseVideo⟩) keyMEvent 1000).1
      (handleKeyDown plainDom {} {} (some ⟨baseVideo⟩) keyMEvent 1000).2.1 keyMEvent 1100 =
      ((handleKeyDown plainDom {} {} (some ⟨baseVideo⟩) keyMEvent 1000).1,
       (handleKeyDown plainDom {} {} (some ⟨baseVideo⟩) keyMEvent 1000).2.1, []) :=
  debounce_single_execution plainDom {} {} (some ⟨baseVideo⟩) keyMEvent keyMEvent 1000 1100
    { action := "toggleMute", description := "Mute/Unmute", category := "volume" }
    rfl (by decide) (by decide) (by decide) (by decide) (by decide) (by decide) (by decide)

theorem huluKeys_subset (k : String) (hk : huluKeys.contains k = true) :
    paramountKeys.contains k = true := by
  have hmem : k ∈ huluKeys := by simpa using hk
  fin_cases hmem <;> decide

theorem mem_pd_preventParamountConflicts {m : List (String × KeyMapping)} {k : String}
    {mp : KeyMapping} (hk : paramountKeys.contains k = true)
    (hm : lookupMapping m k = some mp) (hph : mp.platformHandled = false) :
    Obs.preventDefault ∈ preventParamountConflicts m k := by
  simp [preventParamountConflicts, hm, hph]
  simpa using hk

theorem mem_pd_preventHuluConflicts {m : List (String × KeyMapping)} {k : String}
    {mp : KeyMapping} (hk : huluKeys.contains k = true)
    (hm : lookupMapping m k = some mp) (hph : mp.platformHandled = false) :
    Obs.preventDefault ∈ preventHuluConflicts m k := by
  simp [preventHuluConflicts, hm, hph]
  simpa using hk

/-- On hulu.com, for an applicable event mapped to a non-platform-handled key
in the Hulu conflict list, `preventPlatformConflicts` emits `preventDefault`. -/
theorem preventPlatformConflicts_mem_pd (dom : Dom) (arb : ArbState) (cp : Option Player)
    (e : KeyEvent) {mp : KeyMapping}
    (hen : arb.isEnabled = true) (hsh : shouldHandleKey dom cp e = true)
    (hm : lookupMapping arb.keyMappings (getKeyIdentifier e) = some mp)
    (hph : mp.platformHandled = false)
    (hh : strIncludes dom.hostname huluHost = true)
    (hk : huluKeys.contains (getKeyIdentifier e) = true) :
    Obs.preventDefault ∈ preventPlatformConflicts dom arb cp e := by
  have hc1 : (!arb.isEnabled || !shouldHandleKey dom cp e) = false := by
    rw [hen, hsh]
    rfl
  unfold preventPlatformConflicts
  rw [hc1]
  simp only [Bool.false_eq_true, if_false]
  refine List.mem_append_right _ ?_
  by_cases hp : strIncludes dom.hostname paramountHost = true
  · unfold getPlatformConfig
    rw [if_pos hp]
    simp only [if_pos hp]
    exact mem_pd_preventParamountConflicts (huluKeys_subset _ hk) hm hph
  · unfold getPlatformConfig
    rw [if_neg hp, if_pos hh]
    simp only [if_neg hp, if_pos hh]
    exact mem_pd_preventHuluConflicts hk hm hph

theorem needsPrevention_of_hulu {h : String} (hh : strIncludes h huluHost = true) :
    (match getPlatformConfig h with
     | some pc => pc.needsConflictPrevention
     | none => false) = true := by
  unfold getPlatformConfig
  by_cases hp : strIncludes h paramountHost = true
  · rw [if_pos hp]
  · rw [if_neg hp, if_pos hh]

/-- C2 is false as stated: on the aggressive site (hulu.com with conflict
prevention), the mapped key `Digit5` — not in the Hulu conflict list —
executes its action with no prior suppression: the trace begins with the
execution and `preventDefault`/`stopPropagation` only follow inside the
executor's async-seek path. -/
theorem suppression_order_counterexample :
    (handleKeyDown huluDom {} {} (some ⟨baseVideo⟩) digit5Event 1000).2.2 =
      [Obs.exec ("seekToPercentage"), Obs.preventDefault, Obs.stopPropagation] := by
  decide

/-- C2 (amended): on every non-aggressive site the mapped action executes
before any suppression is evaluated (the trace starts with the execution); on
the aggressive site (hulu.com, whose policy needs conflict prevention),
suppression is called before the action exactly for mapped
non-platform-handled keys in the per-site conflict list, while for other
mapped keys nothing is suppressed before the action runs. -/
theorem suppression_order_amended (dom : Dom) (cfg : Settings) (arb : ArbState)
    (cp : Option Player) (e : KeyEvent) (now : ℕ) (mp : KeyMapping)
    (hen : arb.isEnabled = true)
    (hsh : shouldHandleKey dom cp e = true)
    (hm : lookupMapping arb.keyMappings (getKeyIdentifier e) = some mp)
    (hdeb : (arb.pressedKeys.contains (getKeyIdentifier e) &&
        decide (now - arb.lastKeyTime < keyRepeatDelay)) = false)
    (hdisp : (runAction dom cfg cp mp.action mp.params).isSome = true) :
    (strIncludes dom.hostname huluHost = false →
      ∃ rest, (handleKeyDown dom cfg arb cp e now).2.2 = Obs.exec mp.action :: rest) ∧
    (strIncludes dom.hostname huluHost = true →
     huluKeys.contains (getKeyIdentifier e) = true →
     mp.platformHandled = false →
      ∃ pre post, (handleKeyDown dom cfg arb cp e now).2.2 =
          pre ++ Obs.exec mp.action :: post ∧
        Obs.preventDefault ∈ pre ∧ ∀ o ∈ pre, execObs o = false) := by
  have h1 := handleKeyDown_eq_run dom cfg arb cp e now mp hen hsh hm hdeb
  obtain ⟨tail, ht, hsup⟩ := executeAction_eq_cons dom cfg cp mp hdisp
  constructor
  · intro hh
    rw [h1, ht]
    rw [hh]
    exact ⟨tail ++ (if !false then preventPlatformConflicts dom
      { arb with pressedKeys := addPressedKey arb.pressedKeys (getKeyIdentifier e),
                 lastKeyTime := now } (executeAction dom cfg cp mp).1 e else []), by simp⟩
  · intro hh hk hph
    rw [h1, ht, hh, needsPrevention_of_hulu hh]
    refine ⟨preventPlatformConflicts dom
        { arb with pressedKeys := addPressedKey arb.pressedKeys (getKeyIdentifier e),
                   lastKeyTime := now } cp e, tail, ?_, ?_, ?_⟩
    · simp
    · exact preventPlatformConflicts_mem_pd dom _ cp e hen hsh hm hph hh hk
    · intro o ho
      exact execObs_false_of_suppression (mem_preventPlatformConflicts dom _ cp e o ho)

theorem suppression_order_amended_witness :
    (∃ rest, (handleKeyDown plainDom {} {} (some ⟨baseVideo⟩) keyMEvent 1000).2.2 =
      Obs.exec ("toggleMute") :: rest) ∧
    (∃ pre post, (handleKeyDown huluDom {} {} (some ⟨baseVideo⟩) arrowRightEvent 1000).2.2 =
        pre ++ Obs.exec ("seekForward") :: post ∧
      Obs.preventDefault ∈ pre ∧ ∀ o ∈ pre, execObs o = false) :=
  ⟨(suppression_order_amended plainDom {} {} (some ⟨baseVideo⟩) keyMEvent 1000
      { action := "toggleMute", description := "Mute/Unmute", category := "volume" }
      rfl (by decide) (by decide) (by decide) (by decide)).1 (by decide),
   (suppression_order_amended huluDom {} {} (some ⟨baseVideo⟩) arrowRightEvent 1000
      { action := "seekForward", description := "Seek forward 5s", category := "seeking" }
      rfl (by decide) (by decide) (by decide) (by decide)).2 (by decide) (by decide) rfl⟩

theorem volume_bounds_amended_witness :
    volumeInBounds (volumeUp {} (some ⟨baseVideo⟩) (some (1 / 10))).2 = true ∧
    volumeInBounds (volumeDown {} (some ⟨baseVideo⟩) (some (1 / 10))).2 = true ∧
    (∀ pl : Player, Settings.enableVolumeControl {} = true → pl.video.volume = 19 / 20 →
      (volumeUp {} (some pl) (some (1 / 10))).2 = some ⟨{ pl.video with volume := 1 }⟩) :=
  volume_bounds_amended {} (some ⟨baseVideo⟩) (1 / 10) (by norm_num) (by norm_num [volumeInBounds, baseVideo])

end Seeker
